import Mathlib

/-!
Verification of the wyrmhole Transfer Session & Archive Engine
(`src/src-tauri/src/files.rs`) against its natural-language specification.

The Rust source is shallowly embedded: the four global registry tables
(`ACTIVE_SENDS`, `ACTIVE_DOWNLOADS`, `ACTIVE_CONNECTIONS`, `REQUESTS_HASHMAP`,
files.rs lines 49-59) are modelled as association lists with the replace
semantics of `std::collections::HashMap`; the pure helpers
(`find_unique_file_path`, tarball pack/unpack entry processing, the
percentage computation, receive-code parsing) are translated function by
function.  Filesystem existence checks become boolean predicates passed as
arguments; the `chrono` timestamp becomes a string argument; `f64`
arithmetic is modelled bit-exactly as IEEE-754 binary64 round-to-nearest-even
over `Nat`/`Int`.
-/

set_option maxRecDepth 16384

namespace Wyrm

/-! ## Registry tables

`std::collections::HashMap<String, V>` behind a `tokio::sync::Mutex`
(files.rs 49-59).  A map is an association list holding at most one entry
per key; `insertT` mirrors `HashMap::insert` (the new pair replaces any
entry with the same key; the old value is returned to the caller and, at
every call site in files.rs, silently dropped), `removeT` mirrors
`HashMap::remove`, `lookupT` mirrors `HashMap::get`. -/

/-- A registry table: association list from session id to entry. -/
abbrev Table (α : Type) := List (String × α)

/-- `HashMap::get`. -/
def lookupT {α : Type} (k : String) (t : Table α) : Option α :=
  (t.find? (fun e => e.1 == k)).map (·.2)

/-- `HashMap::insert`: the new entry replaces any existing entry for the same
key; no error is produced.  The replaced value is returned (and dropped by
every caller in files.rs). -/
def insertT {α : Type} (k : String) (v : α) (t : Table α) : Table α :=
  (k, v) :: t.filter (fun e => !(e.1 == k))

/-- `HashMap::remove`: returns the removed entry (if any) and the table
without it.  When the key is absent the table is returned unchanged. -/
def removeT {α : Type} (k : String) (t : Table α) : Option α × Table α :=
  match t.find? (fun e => e.1 == k) with
  | some e => (some e.2, t.filter (fun e => !(e.1 == k)))
  | none => (none, t)

/-- `ActiveSend` (files.rs 34-37): rendezvous code plus a one-shot
cancellation sender (`Option<oneshot::Sender<()>>`).  The sender carries no
data, so it is modelled as `Option Unit`. -/
structure ActiveSendM where
  code : String
  cancelTx : Option Unit
  deriving DecidableEq, Repr

/-- `ActiveDownload` (files.rs 39-42): one-shot cancellation sender and the
destination file display name. -/
structure ActiveDownloadM where
  cancelTx : Unit
  fileName : String
  deriving DecidableEq, Repr

/-- `ActiveConnection` (files.rs 44-46): just the one-shot cancellation
sender. -/
structure ActiveConnectionM where
  cancelTx : Unit
  deriving DecidableEq, Repr

/-! ## Cancellation operations (C7) -/

/-- `cancel_send` (files.rs 962-992): lock `ACTIVE_SENDS`, `remove(send_id)`;
absent id ⇒ error; present ⇒ fire the one-shot sender when it is still
there, else a second error.  Returns the table after the call and the
`Result`. -/
def cancel_send_model (t : Table ActiveSendM) (sendId : String) :
    Table ActiveSendM × Except String String :=
  match removeT sendId t with
  | (none, t') => (t', .error "No active send found for this ID")
  | (some s, t') =>
    match s.cancelTx with
    | some _ => (t', .ok "Send cancelled")
    | none => (t', .error "No cancel channel found for this send")

/-- `cancel_download` (files.rs 1424-1449): lock `ACTIVE_DOWNLOADS`,
`remove(download_id)`; absent id ⇒ error; present ⇒ fire the sender. -/
def cancel_download_model (t : Table ActiveDownloadM) (downloadId : String) :
    Table ActiveDownloadM × Except String String :=
  match removeT downloadId t with
  | (none, t') => (t', .error "No active download found for this ID")
  | (some _, t') => (t', .ok "Download cancelled")

/-- `cancel_connection` (files.rs 1112-1131): lock `ACTIVE_CONNECTIONS`,
`remove(connection_id)`; absent id ⇒ error; present ⇒ fire the sender. -/
def cancel_connection_model (t : Table ActiveConnectionM) (connectionId : String) :
    Table ActiveConnectionM × Except String String :=
  match removeT connectionId t with
  | (none, t') => (t', .error "No active connection found for this ID")
  | (some _, t') => (t', .ok "Connection cancelled")

/-! ## PathResolver: `find_unique_file_path` (C5)

files.rs 1681-1715.  The filesystem is abstracted to the predicate
`ex : String → Bool` telling whether `download_dir.join(name)` exists; the
`chrono::Utc::now().format("%Y%m%d_%H%M%S")` timestamp is the argument
`ts`. -/

/-- Split a character list at its last `'.'`: `some (before, after)` when a
dot occurs (dot excluded from both sides), `none` otherwise.  This is
`str::rsplit_once('.')`. -/
def lastDotSplit : List Char → Option (List Char × List Char)
  | [] => none
  | c :: rest =>
    match lastDotSplit rest with
    | some (b, a) => some (c :: b, a)
    | none => if c = '.' then some ([], rest) else none

/-- The (stem, extension) split of files.rs 1690-1693: the extension keeps
its leading dot (`format!(".{}", ext)`); a name without a dot yields the
whole name and the empty extension. -/
def stemExt (name : String) : String × String :=
  match lastDotSplit name.toList with
  | some (b, a) => (String.mk b, "." ++ String.mk a)
  | none => (name, "")

/-- The probe name `format!("{}({}){}", file_name, counter, extension)`
(files.rs 1698). -/
def probeName (stem : String) (n : Nat) (ext : String) : String :=
  stem ++ "(" ++ toString n ++ ")" ++ ext

/-- The timestamp fallback `format!("{}_{}{}", file_name, timestamp, extension)`
(files.rs 1711); it is returned without an existence probe. -/
def timestampName (stem ts ext : String) : String :=
  stem ++ "_" ++ ts ++ ext

/-- The probe loop of files.rs 1696-1714: try `stem(counter)ext`; if unused
return it; otherwise `counter += 1`, and once `counter > 10000` return the
timestamp fallback.  `fuel` makes the recursion structural; started with
fuel 10000 at counter 1 the fuel-0 branch is unreachable (the `counter + 1 > 10000`
exit fires first) and is given the same fallback value. -/
def findUniqueLoop (ex : String → Bool) (stem ext ts : String) :
    Nat → Nat → String
  | _, 0 => timestampName stem ts ext
  | counter, fuel + 1 =>
    let cand := probeName stem counter ext
    if ex cand = false then cand
    else if counter + 1 > 10000 then timestampName stem ts ext
    else findUniqueLoop ex stem ext ts (counter + 1) fuel

/-- `find_unique_file_path` (files.rs 1681-1715): return the proposed name
unchanged when unused, else split stem/extension on the last dot and run the
probe loop from counter 1. -/
def find_unique_file_path (ex : String → Bool) (name ts : String) : String :=
  if ex name = false then name
  else
    let se := stemExt name
    findUniqueLoop ex se.1 se.2 ts 1 10000

/-! ## Progress percentage (C8)

The progress closures (files.rs 321-326, 456-461, 860-865, 1199-1204) all
compute `(sent as f64 / total as f64 * 100.0) as u64` when `total > 0` and
`0` otherwise.  `f64` is IEEE-754 binary64; every operation rounds to
nearest, ties to even.  A nonnegative finite double is represented as
`m * 2 ^ e` with `m < 2 ^ 53`. -/

/-- A nonnegative finite IEEE-754 binary64 value `m * 2 ^ e`
(`m < 2 ^ 53`; zero is `⟨0, 0⟩`). -/
structure F64 where
  m : Nat
  e : Int
  deriving Repr, DecidableEq

/-- Round the nonnegative rational `a / b` (with `b > 0`) to the nearest
integer, ties to even. -/
def rndHalfEven (a b : Nat) : Nat :=
  let q := a / b
  let r := a % b
  if 2 * r < b then q
  else if 2 * r > b then q + 1
  else if q % 2 = 0 then q else q + 1

/-- Decide `2 ^ t ≤ num / den` for an integer `t`, positive `num`, `den`. -/
def pw2Le (t : Int) (num den : Nat) : Bool :=
  if 0 ≤ t then 2 ^ t.toNat * den ≤ num else den ≤ 2 ^ (-t).toNat * num

/-- `⌊log₂ n⌋` by structural recursion on a fuel bound (so that it reduces
in the kernel); agrees with the usual floor-log₂ for every `n < 2 ^ fuel`. -/
def log2Fuel : Nat → Nat → Nat
  | 0, _ => 0
  | fuel + 1, n => if 2 ≤ n then log2Fuel fuel (n / 2) + 1 else 0

/-- `⌊log₂ n⌋` for positive `n`; fuel 4096 covers every magnitude arising
from 64-bit counters and binary64 exponents. -/
def natLog2 (n : Nat) : Nat := log2Fuel 4096 n

/-- `⌊log₂ (num / den)⌋` for positive `num`, `den`: the first guess
`natLog2 num - natLog2 den` is exact or off by one, which the `pw2Le`
probe settles. -/
def ratFloorLog2 (num den : Nat) : Int :=
  let r : Int := (natLog2 num : Int) - (natLog2 den : Int)
  if pw2Le r num den then r else r - 1

/-- Round the positive rational `num / den` to 53 significant bits,
nearest-ties-to-even (the binary64 significand; all values arising here are
far inside the normal exponent range). -/
def roundPosRat (num den : Nat) : F64 :=
  let t := ratFloorLog2 num den
  let e := t - 52
  let ab := if 0 ≤ e then (num, den * 2 ^ e.toNat) else (num * 2 ^ (-e).toNat, den)
  let m := rndHalfEven ab.1 ab.2
  if m = 2 ^ 53 then ⟨2 ^ 52, e + 1⟩ else ⟨m, e⟩

/-- Round `num / den * 2 ^ sh` to binary64 (zero when `num = 0`). -/
def roundQ (num den : Nat) (sh : Int) : F64 :=
  if num = 0 then ⟨0, 0⟩
  else if 0 ≤ sh then roundPosRat (num * 2 ^ sh.toNat) den
  else roundPosRat num (den * 2 ^ (-sh).toNat)

/-- `u64 as f64`: exact below `2 ^ 53`, rounded to nearest above. -/
def ofNatF64 (n : Nat) : F64 := roundQ n 1 0

/-- binary64 division, correctly rounded (`y ≠ 0` at every use site:
the dividend's `total > 0` guard). -/
def divF64 (x y : F64) : F64 := roundQ x.m y.m (x.e - y.e)

/-- binary64 multiplication, correctly rounded. -/
def mulF64 (x y : F64) : F64 := roundQ (x.m * y.m) 1 (x.e + y.e)

/-- `f64 as u64` on a nonnegative finite value: truncation toward zero. -/
def f64ToU64 (x : F64) : Nat :=
  if 0 ≤ x.e then x.m * 2 ^ x.e.toNat else x.m / 2 ^ (-x.e).toNat

/-- The progress-handler percentage
(files.rs 321-326 / 456-461 / 860-865 / 1199-1204):
`if total > 0 { (sent as f64 / total as f64 * 100.0) as u64 } else { 0 }`. -/
def percentage (sent total : Nat) : Nat :=
  if total > 0 then
    f64ToU64 (mulF64 (divF64 (ofNatF64 sent) (ofNatF64 total)) (ofNatF64 100))
  else 0

/-! ## ArchiveEngine: reported tarball size (C2)

`create_tarball_from_folder` (files.rs 1526-1558) and
`create_tarball_from_paths` (files.rs 1562-1613) write through
`tar::Builder<GzEncoder<File>>`.  `tar::Builder::finish` writes the two
512-byte tar terminator blocks through the encoder but does not close it;
the 8-byte gzip trailer (CRC32 + ISIZE) is written only by
`GzEncoder::try_finish`, which runs when the builder/encoder value is
dropped — *after* `std::fs::metadata(output_path)` has already been read for
the return value.  The model below records the on-disk byte counts at both
moments; `compressedFlushed` is the compressed output already flushed to the
file when `tar.finish` returns (the model's best case: everything except the
trailer; the encoder may in reality also still buffer deflate output, making
the gap even larger). -/

/-- The gzip stream trailer: CRC32 (4 bytes) + ISIZE (4 bytes). -/
def GZIP_TRAILER_LEN : Nat := 8

/-- The archive file as seen on disk while packing. -/
structure GzFile where
  disk : Nat
  trailerDone : Bool
  deriving Repr, DecidableEq

/-- Compressed bytes flushed through the encoder to the file. -/
def gzAppendFlushed (f : GzFile) (n : Nat) : GzFile :=
  { f with disk := f.disk + n }

/-- `GzEncoder` drop: `try_finish` writes the gzip trailer if not yet
written. -/
def gzDrop (f : GzFile) : GzFile :=
  if f.trailerDone then f
  else { disk := f.disk + GZIP_TRAILER_LEN, trailerDone := true }

/-- The write/read ordering of `create_tarball_from_folder` /
`create_tarball_from_paths` on the success path (files.rs 1531-1557 and
1567-1612): `File::create`; entry data and the tar terminator flushed
through the encoder; `std::fs::metadata(output_path).len()` taken as the
return value; then the builder (and its encoder) dropped, appending the
gzip trailer.  Returns `(returned size, final file)`. -/
def create_tarball_disk_run (compressedFlushed : Nat) : Nat × GzFile :=
  let f0 : GzFile := ⟨0, false⟩
  let f1 := gzAppendFlushed f0 compressedFlushed
  let returned := f1.disk
  let f2 := gzDrop f1
  (returned, f2)

/-! ## ArchiveEngine: failure cleanup (C3)

`create_tarball_from_paths` (files.rs 1562-1613) first runs
`File::create(output_path)` — the archive file now exists — and then walks
the sources; the first missing source returns
`Err("File or folder does not exist: …")` with no `remove_file`.  The
caller `send_multiple_files_call` propagates that error through
`.map_err(…)??` (files.rs 793-802) without deleting the file either (its
`remove_file` calls sit only on the open-tarball and send failure paths,
files.rs 823-826 and 901-904).  The filesystem is abstracted to the list of
existing source paths; the boolean in the result records whether the
archive file exists at `output_path` when the call returns. -/

/-- Source-walk outcome of `create_tarball_from_paths`: `Err` at the first
missing source, `Ok` when all sources exist; the `Bool` is "the output file
exists at `output_path` after the call" (it was created up front and never
deleted by this function). -/
def create_tarball_from_paths_fsrun (paths fsExisting : List String) :
    Except String Unit × Bool :=
  match paths.find? (fun p => !(fsExisting.contains p)) with
  | some p => (.error ("File or folder does not exist: " ++ p), true)
  | none => (.ok (), true)

/-- The packaging stage of `send_multiple_files_call` (files.rs 791-810):
the spawned `create_tarball_from_paths` result is unwrapped with `??`, so a
tarball error returns from the whole call unchanged, with no `remove_file`
on that path. -/
def send_multiple_files_packaging (paths fsExisting : List String) :
    Except String Unit × Bool :=
  match create_tarball_from_paths_fsrun paths fsExisting with
  | (.error e, ex) => (.error e, ex)
  | (.ok _, ex) => (.ok (), ex)

/-! ## ArchiveEngine: pack / unpack entries (C4)

Archive contents are modelled at the entry level.  Paths are component
lists; file bodies are byte lists.  `create_tarball_from_paths`
(files.rs 1573-1598) appends, in input order: for a directory source,
`append_dir_all(folder_name/<basename>, src)` — a directory entry followed
by one file entry per contained file at `folder_name/<basename>/<rel>`
(subtree walk; nested directory entries are omitted here because
`extract_tarball` skips every directory entry) — and for a file source,
`append_path_with_name(src, folder_name/<basename>)`. -/

/-- File bytes. -/
abbrev Bytes := List Nat

/-- A path as components. -/
abbrev RPath := List String

/-- A source item handed to `create_tarball_from_paths`: a file, or a
directory given by the relative paths and contents of the files in its
subtree. -/
inductive SrcItem
  | file (basename : String) (content : Bytes)
  | dir (basename : String) (files : List (RPath × Bytes))
  deriving Repr, DecidableEq

/-- An archive entry: a directory entry or a file entry. -/
inductive TarEntry
  | dirE (path : RPath)
  | fileE (path : RPath) (content : Bytes)
  deriving Repr, DecidableEq

/-- The entry sequence written by `create_tarball_from_paths`
(files.rs 1573-1598): sources in input order, each under
`folder_name/<basename>`. -/
def packEntries (folderName : String) (srcs : List SrcItem) : List TarEntry :=
  srcs.flatMap fun s =>
    match s with
    | .file b c => [.fileE [folderName, b] c]
    | .dir b fs =>
      .dirE [folderName, b] :: fs.map (fun pc => .fileE ([folderName, b] ++ pc.1) pc.2)

/-- The flat list of (relative path under the wrapper, content) pairs of
every file among the sources, in archive order. -/
def flatFiles (srcs : List SrcItem) : List (RPath × Bytes) :=
  srcs.flatMap fun s =>
    match s with
    | .file b c => [([b], c)]
    | .dir b fs => fs.map (fun pc => (b :: pc.1, pc.2))

/-- The destination directory contents: written files by path.  Later
writes to the same path overwrite (`File::create` truncates). -/
abbrev DestFS := List (RPath × Bytes)

/-- A successful `File::create` + `io::copy` at a destination path:
truncate and rewrite an existing file at the path, else create a new
entry.  The ways these operations can fail on a path conflict are checked
by `extract_tarball_model` before the write, mirroring the source's
control flow. -/
def fsWrite : DestFS → RPath → Bytes → DestFS
  | [], p, c => [(p, c)]
  | e :: rest, p, c => if e.1 = p then (p, c) :: rest else e :: fsWrite rest p c

/-- Contents of the destination file at a path, if present. -/
def fsLookup : DestFS → RPath → Option Bytes
  | [], _ => none
  | e :: rest, p => if e.1 = p then some e.2 else fsLookup rest p

/-- `p` is a strict ancestor of `q`: a proper leading segment of its
component list. -/
def strictAncestor : RPath → RPath → Bool
  | [], [] => false
  | [], _ :: _ => true
  | _ :: _, [] => false
  | a :: p, b :: q => a == b && strictAncestor p q

/-- Some already-extracted file lies strictly below `p`: the on-disk
object at `p` is then a directory (created on demand by an earlier
entry's `create_dir_all`), so `File::create(p)` fails
(files.rs 1664-1665). -/
def isDirAt (fs : DestFS) (p : RPath) : Bool :=
  fs.any (fun e => strictAncestor p e.1)

/-- Some strict ancestor of `p` is an already-extracted file, so
`create_dir_all` on `p`'s parent chain fails (files.rs 1658-1661). -/
def fileAncestorOf (fs : DestFS) (p : RPath) : Bool :=
  fs.any (fun e => strictAncestor e.1 p)

/-- Two archive file paths conflict when they are equal or one is a strict
ancestor of the other; conflicting entries either overwrite or make
extraction fail. -/
def pathsConflict (p q : RPath) : Bool :=
  p == q || strictAncestor p q || strictAncestor q p

/-- `extract_tarball` (files.rs 1616-1678): entries in order; directory
entries are skipped before any filesystem operation; for each file entry,
`create_dir_all` on the parent chain fails when a strict ancestor of the
entry path already exists as a file (files.rs 1658-1661), `File::create`
fails when the entry path itself is an existing directory
(files.rs 1664-1665) — either failure aborts the whole unpack with an
error (the `io::Error` text appended by `format!` is environmental and not
modelled) — and otherwise the entry is written to `output_dir/<path>` and
reported as `(path.file_name(), metadata.len())`: the display name is the
last path component (falling back to the whole path string for an empty
path, as `unwrap_or_else` does) and the size is the byte count written. -/
def extract_tarball_model : List TarEntry → DestFS →
    Except String (List (String × Nat) × DestFS)
  | [], fs => .ok ([], fs)
  | .dirE _ :: rest, fs => extract_tarball_model rest fs
  | .fileE p c :: rest, fs =>
    if fileAncestorOf fs p then .error "Failed to create directory"
    else if isDirAt fs p then .error "Failed to create output file"
    else
      let displayName := (p.getLast?).getD (String.intercalate "/" p)
      let fs' := fsWrite fs p c
      match extract_tarball_model rest fs' with
      | .error e => .error e
      | .ok out => .ok ((displayName, c.length) :: out.1, out.2)

/-- The file entries of an archive, in order, as (path, content) pairs. -/
def fileEntriesOf (entries : List TarEntry) : List (RPath × Bytes) :=
  entries.filterMap fun e =>
    match e with
    | .dirE _ => none
    | .fileE p c => some (p, c)

/-- The destination filesystem after a sequence of file writes. -/
def foldWrites (ws : List (RPath × Bytes)) (fs : DestFS) : DestFS :=
  ws.foldl (fun f pc => fsWrite f pc.1 pc.2) fs

/-! ## Post-download archive handling (C6)

`receiving_file_accept` after a completed transfer (files.rs 1314-1418). -/

/-- `pat` is a prefix of `cs`. -/
def charsStartWith : List Char → List Char → Bool
  | [], _ => true
  | _ :: _, [] => false
  | p :: ps, c :: cs => p == c && charsStartWith ps cs

/-- `str::ends_with(sfx)`. -/
def endsWithS (s sfx : String) : Bool :=
  charsStartWith sfx.toList.reverse s.toList.reverse

/-- The tarball test of files.rs 1315-1317. -/
def is_tarball (name : String) : Bool :=
  endsWithS name ".tar.gz" || endsWithS name ".tgz" || endsWithS name ".gz"

/-- The `rsplit_once('.')` name/extension split used for history records
(files.rs 1243-1250 and 1341-1344): (before last dot, after last dot), or
(whole name, empty) without a dot. -/
def splitNameExt (s : String) : String × String :=
  match lastDotSplit s.toList with
  | some (b, a) => (String.mk b, String.mk a)
  | none => (s, "")

/-- One received-file history record: (file_name, file_extension,
file_size). -/
abbrev HistRecord := String × String × Nat

/-- Outcome of the post-download step: the history records appended and
whether the downloaded archive file was deleted from disk. -/
structure PostDownload where
  history : List HistRecord
  archiveDeleted : Bool
  deriving Repr, DecidableEq

/-- The post-download step of `receiving_file_accept` (files.rs 1314-1418)
on the success path: a tarball-named file with auto-extract on is extracted
(`extracted` is `extract_tarball`'s successful result), one history record
per extracted file, then the archive is removed from disk; with
auto-extract off, exactly one record for the archive itself (offered size
`fileSize`) and the file stays; a non-tarball name gets one record and the
file stays. -/
def receiving_file_accept_post (finalName : String) (fileSize : Nat)
    (autoExtract : Bool) (extracted : List (String × Nat)) : PostDownload :=
  if is_tarball finalName then
    if autoExtract then
      { history := extracted.map (fun en => ((splitNameExt en.1).1, (splitNameExt en.1).2, en.2))
        archiveDeleted := true }
    else
      { history := [((splitNameExt finalName).1, (splitNameExt finalName).2, fileSize)]
        archiveDeleted := false }
  else
    { history := [((splitNameExt finalName).1, (splitNameExt finalName).2, fileSize)]
      archiveDeleted := false }

/-! ## Lock scopes and suspension points (C9)

Each `async fn` of files.rs is abstracted to its sequence of registry-lock
acquisitions/releases and `await` suspension points, in source order.
`.lock().await` is itself a suspension point (awaiting the mutex) and is
written `susp, acq t`; a guard dropped at the end of an expression or block
is `rel t` at that spot.  The check below reports whether any table lock is
held when a suspension point is reached. -/

/-- The four registry tables of files.rs 49-59. -/
inductive TableId
  | requests
  | activeSends
  | activeDownloads
  | activeConnections
  deriving DecidableEq, Repr

/-- One step of an async control flow: acquire or release a table lock, or
suspend (any `await` / blocking-pool join). -/
inductive AsyncEv
  | acq (t : TableId)
  | rel (t : TableId)
  | susp
  deriving DecidableEq, Repr

/-- Does some table lock remain held at a suspension point of the trace?
`held` is the multiset of currently held locks. -/
def heldAtSusp : List TableId → List AsyncEv → Bool
  | _, [] => false
  | held, .acq t :: r => heldAtSusp (t :: held) r
  | held, .rel t :: r => heldAtSusp (held.erase t) r
  | held, .susp :: r => !held.isEmpty || heldAtSusp held r

/-- `send_file_call` (files.rs 63-560), folder branch: mailbox create (97);
`ACTIVE_SENDS` insert (103-109); wormhole connect (165); settings lock in
`build_relay_hints` (158/1454-1461); `ACTIVE_SENDS` code read (225-231);
tarball `spawn_blocking` (263-270); `File::open` (281); metadata (299);
`transfer::send_file` (310-343); `remove_file` (380); `ACTIVE_SENDS` read
(383-389) and remove (390).  Every guard is dropped inside its own
statement or block, before the next `await`. -/
def send_file_call_trace : List AsyncEv :=
  [.susp, .susp, .acq .activeSends, .rel .activeSends, .susp, .susp,
   .susp, .acq .activeSends, .rel .activeSends,
   .susp, .susp, .susp, .susp, .susp,
   .susp, .acq .activeSends, .rel .activeSends,
   .susp, .acq .activeSends, .rel .activeSends]

/-- `send_multiple_files_call` (files.rs 562-960): settings lock (596-599,
dropped explicitly); mailbox create (658); `ACTIVE_SENDS` insert (664-670);
wormhole connect (727); settings lock in `build_relay_hints` (720);
`ACTIVE_SENDS` code read (747-753); tarball `spawn_blocking` (793-802);
`File::open` (813); metadata (831); `transfer::send_file` (849-881);
`remove_file` (919); `ACTIVE_SENDS` read (922-928) and remove (929). -/
def send_multiple_files_call_trace : List AsyncEv :=
  [.susp, .susp, .susp, .acq .activeSends, .rel .activeSends, .susp, .susp,
   .susp, .acq .activeSends, .rel .activeSends,
   .susp, .susp, .susp, .susp, .susp,
   .susp, .acq .activeSends, .rel .activeSends,
   .susp, .acq .activeSends, .rel .activeSends]

/-- `cancel_send` (files.rs 962-992): the `ACTIVE_SENDS` guard lives only
inside the block computing `cancel_tx`; the oneshot send and event emit that
follow are synchronous. -/
def cancel_send_trace : List AsyncEv :=
  [.susp, .acq .activeSends, .rel .activeSends]

/-- `request_file_call` (files.rs 994-1110), offer-obtained path:
`ACTIVE_CONNECTIONS` insert block (1020-1023); mailbox connect (1028);
wormhole connect (1044); `transfer::request_file` (1071); `ACTIVE_CONNECTIONS`
remove (1083); `REQUESTS_HASHMAP` insert (1093). -/
def request_file_call_trace : List AsyncEv :=
  [.susp, .acq .activeConnections, .rel .activeConnections,
   .susp, .susp, .susp,
   .susp, .acq .activeConnections, .rel .activeConnections,
   .susp, .acq .requests, .rel .requests]

/-- `cancel_connection` (files.rs 1112-1131): the `ACTIVE_CONNECTIONS` guard
lives only inside the block computing `cancel_tx`. -/
def cancel_connection_trace : List AsyncEv :=
  [.susp, .acq .activeConnections, .rel .activeConnections]

/-- `cancel_download` (files.rs 1424-1449): the `ACTIVE_DOWNLOADS` guard
lives only inside the block computing `(cancel_tx, _file_name)`. -/
def cancel_download_trace : List AsyncEv :=
  [.susp, .acq .activeDownloads, .rel .activeDownloads]

/-- `receiving_file_deny` (files.rs 1133-1150): the `REQUESTS_HASHMAP` guard
is bound at function scope (1136) and is still held across
`entry.request.reject().await` (1138); it drops only at function exit. -/
def receiving_file_deny_trace : List AsyncEv :=
  [.susp, .acq .requests, .susp, .rel .requests]

/-- `receiving_file_accept` (files.rs 1152-1422), tarball/auto-extract
branch: the `REQUESTS_HASHMAP` guard is bound at function scope (1153-1154)
and stays held across every later await: settings lock (1186), `create_dir_all`
(1219), `File::create` (1253), `ACTIVE_DOWNLOADS` insert (1277-1283),
`accept` (1288-1291), `ACTIVE_DOWNLOADS` remove (1312), settings lock
(1323), extraction `spawn_blocking` (1329-1335); it drops only at function
exit. -/
def receiving_file_accept_trace : List AsyncEv :=
  [.susp, .acq .requests,
   .susp, .susp, .susp,
   .susp, .acq .activeDownloads, .rel .activeDownloads,
   .susp,
   .susp, .acq .activeDownloads, .rel .activeDownloads,
   .susp, .susp,
   .rel .requests]

/-! ## Receive-code parsing (C10)

`request_file_call` input handling (files.rs 998-1023). -/

/-- `str::trim_start`: drop leading whitespace (Rust trims by Unicode
White_Space; `Char.isWhitespace` agrees on the ASCII whitespace relevant to
rendezvous codes). -/
def trimCharsLeft (cs : List Char) : List Char :=
  cs.dropWhile Char.isWhitespace

/-- `str::trim`: drop leading and trailing whitespace. -/
def trimChars (cs : List Char) : List Char :=
  ((cs.dropWhile Char.isWhitespace).reverse.dropWhile Char.isWhitespace).reverse

/-- The input normalisation of files.rs 998-1007: trim surrounding
whitespace; strip one leading `"wormhole receive "` (the `if` runs once)
followed by `trim_start`; an empty remainder is the no-code error. -/
def parse_receive_input (receiveCode : String) : Except String String :=
  let code0 := trimChars receiveCode.toList
  let pfxList := "wormhole receive ".toList
  let code1 :=
    if charsStartWith pfxList code0 then
      trimCharsLeft (code0.drop pfxList.length)
    else code0
  if code1.isEmpty then .error "No code provided for receiving file."
  else .ok (String.mk code1)

/-- The parse-and-register phase of `request_file_call` (files.rs 994-1023):
normalise the input, run `str::parse::<Code>` (the external
`magic_wormhole::Code` parser, abstracted as `parseCode`), and only after a
successful parse insert the connection entry into `ACTIVE_CONNECTIONS`.
Returns the `Result` and the connections table after the phase. -/
def request_file_call_parse_phase (parseCode : String → Option String)
    (input connId : String) (conns : Table ActiveConnectionM) :
    Except String String × Table ActiveConnectionM :=
  match parse_receive_input input with
  | .error e => (.error e, conns)
  | .ok s =>
    match parseCode s with
    | none => (.error ("Error parsing code: " ++ s), conns)
    | some c => (.ok c, insertT connId ⟨()⟩ conns)

/-! ## Helper lemmas -/

theorem find?_filter_out_key {α : Type} (t : Table α) (k : String) :
    (t.filter (fun e => !(e.1 == k))).find? (fun e => e.1 == k) = none := by
  induction t with
  | nil => rfl
  | cons e rest ih =>
    by_cases h : e.1 = k
    · simp [List.filter, h, ih]
    · have hb : (e.1 == k) = false := by simp [h]
      simp [List.filter, hb, List.find?, ih]

theorem lookupT_removeT_snd {α : Type} (t : Table α) (k : String) :
    lookupT k (removeT k t).2 = none := by
  unfold removeT
  cases hf : t.find? (fun e => e.1 == k) with
  | none => simp [lookupT, hf]
  | some e => simp [lookupT, find?_filter_out_key]

theorem lookupT_none_removeT {α : Type} (t : Table α) (k : String)
    (h : lookupT k t = none) : removeT k t = (none, t) := by
  unfold lookupT at h
  unfold removeT
  cases hf : t.find? (fun e => e.1 == k) with
  | none => rfl
  | some e => simp [hf] at h

theorem find?_filter_keep {α : Type} (t : Table α) (k k' : String)
    (h : k' ≠ k) :
    (t.filter (fun e => !(e.1 == k))).find? (fun e => e.1 == k') =
      t.find? (fun e => e.1 == k') := by
  induction t with
  | nil => rfl
  | cons e rest ih =>
    by_cases he : e.1 = k'
    · have hbk : (e.1 == k) = false := by
        simp only [beq_eq_false_iff_ne]
        exact he ▸ h
      have hb : (e.1 == k') = true := by simp [he]
      simp [List.filter_cons, hbk, List.find?_cons, hb]
    · have hb : (e.1 == k') = false := by simp [he]
      by_cases hek : e.1 = k
      · have hbk : (e.1 == k) = true := by simp [hek]
        simp [List.filter_cons, hbk, List.find?_cons, hb, ih]
      · have hbk : (e.1 == k) = false := by simp [hek]
        simp [List.filter_cons, hbk, List.find?_cons, hb, ih]

/-! ## C1 — registry insertion for an already-present id -/

/-- C1, counterexample.  The claim states that inserting into a session
table for an id that is already present fails with `DuplicateId` and never
silently overwrites the existing live entry.  The registry insertions
(files.rs 103-109, 664-670, 1022, 1093) are plain `HashMap::insert`, which
has no failure outcome: here an `ACTIVE_SENDS` table holding id `"x"`
receives a second insert for `"x"` and the live entry is silently replaced
— the old entry is gone and no error is produced. -/
theorem C1_insert_overwrites_counterexample :
    insertT "x" (⟨"new", none⟩ : ActiveSendM) [("x", ⟨"old", some ()⟩)] =
        [("x", ⟨"new", none⟩)] ∧
      lookupT "x" (insertT "x" (⟨"new", none⟩ : ActiveSendM)
        [("x", ⟨"old", some ()⟩)]) ≠ some ⟨"old", some ()⟩ := by
  constructor
  · rfl
  · decide

/-- C1, amended.  `HashMap::insert` silently replaces any existing live
entry for the same id and never fails: after `insertT k v t` the entry at
`k` is `v` (whatever was there before is dropped), every other id is
untouched, and no `DuplicateId`-style error exists in the interface. -/
theorem C1_insert_replaces {α : Type} (t : Table α) (k : String) (v : α) :
    lookupT k (insertT k v t) = some v ∧
      ∀ k', k' ≠ k → lookupT k' (insertT k v t) = lookupT k' t := by
  constructor
  · simp [lookupT, insertT, List.find?]
  · intro k' hk
    have hb : (k == k') = false := by
      simp only [beq_eq_false_iff_ne]
      exact fun hh => hk hh.symm
    simp [lookupT, insertT, List.find?_cons, hb, find?_filter_keep t k k' hk]

/-- C1, witness for the amended theorem at a concrete table. -/
theorem C1_insert_replaces_witness :
    lookupT "x" (insertT "x" (⟨"c2", none⟩ : ActiveSendM) [("x", ⟨"c1", some ()⟩), ("y", ⟨"c3", none⟩)]) =
        some ⟨"c2", none⟩ ∧
      lookupT "y" (insertT "x" (⟨"c2", none⟩ : ActiveSendM) [("x", ⟨"c1", some ()⟩), ("y", ⟨"c3", none⟩)]) =
        lookupT "y" [("x", ⟨"c1", some ()⟩), ("y", ⟨"c3", none⟩)] := by
  have h := C1_insert_replaces [("x", (⟨"c1", some ()⟩ : ActiveSendM)), ("y", ⟨"c3", none⟩)] "x" ⟨"c2", none⟩
  exact ⟨h.1, h.2 "y" (by decide)⟩

/-! ## C7 — cancellation of an absent session -/

/-- C7.  Cancelling a send, download, or connection whose id has no live
entry (in particular after completion removed it, files.rs 390, 1083, 1312)
returns the `NotFound`-style error of files.rs 969/1434/1119 and leaves the
table unchanged; and since a successful cancel removes the entry together
with its one-shot trigger, a second cancel of the same id always reports
the same error — the trigger is consumed at most once. -/
theorem C7_cancel_missing_id (ts : Table ActiveSendM)
    (td : Table ActiveDownloadM) (tc : Table ActiveConnectionM) (id : String) :
    (lookupT id ts = none →
      cancel_send_model ts id = (ts, .error "No active send found for this ID")) ∧
    (lookupT id td = none →
      cancel_download_model td id = (td, .error "No active download found for this ID")) ∧
    (lookupT id tc = none →
      cancel_connection_model tc id = (tc, .error "No active connection found for this ID")) ∧
    (cancel_send_model (cancel_send_model ts id).1 id).2 =
      .error "No active send found for this ID" ∧
    (cancel_download_model (cancel_download_model td id).1 id).2 =
      .error "No active download found for this ID" ∧
    (cancel_connection_model (cancel_connection_model tc id).1 id).2 =
      .error "No active connection found for this ID" := by
  have hs2 : ∀ t : Table ActiveSendM, (cancel_send_model t id).1 = (removeT id t).2 := by
    intro t
    unfold cancel_send_model
    rcases hrm : removeT id t with ⟨fst, snd⟩
    cases fst with
    | none => rfl
    | some s =>
      rcases s with ⟨code, tx⟩
      cases tx <;> rfl
  have hd2 : ∀ t : Table ActiveDownloadM, (cancel_download_model t id).1 = (removeT id t).2 := by
    intro t
    unfold cancel_download_model
    rcases hrm : removeT id t with ⟨fst, snd⟩
    cases fst <;> rfl
  have hc2 : ∀ t : Table ActiveConnectionM, (cancel_connection_model t id).1 = (removeT id t).2 := by
    intro t
    unfold cancel_connection_model
    rcases hrm : removeT id t with ⟨fst, snd⟩
    cases fst <;> rfl
  have hsErr : ∀ t : Table ActiveSendM, lookupT id t = none →
      cancel_send_model t id = (t, .error "No active send found for this ID") := by
    intro t h
    unfold cancel_send_model
    rw [lookupT_none_removeT t id h]
  have hdErr : ∀ t : Table ActiveDownloadM, lookupT id t = none →
      cancel_download_model t id = (t, .error "No active download found for this ID") := by
    intro t h
    unfold cancel_download_model
    rw [lookupT_none_removeT t id h]
  have hcErr : ∀ t : Table ActiveConnectionM, lookupT id t = none →
      cancel_connection_model t id = (t, .error "No active connection found for this ID") := by
    intro t h
    unfold cancel_connection_model
    rw [lookupT_none_removeT t id h]
  refine ⟨hsErr ts, hdErr td, hcErr tc, ?_, ?_, ?_⟩
  · have h1 : lookupT id (cancel_send_model ts id).1 = none := by
      rw [hs2]; exact lookupT_removeT_snd ts id
    rw [hsErr _ h1]
  · have h1 : lookupT id (cancel_download_model td id).1 = none := by
      rw [hd2]; exact lookupT_removeT_snd td id
    rw [hdErr _ h1]
  · have h1 : lookupT id (cancel_connection_model tc id).1 = none := by
      rw [hc2]; exact lookupT_removeT_snd tc id
    rw [hcErr _ h1]

/-- C7, witness: concrete tables — an id absent from `ACTIVE_SENDS` errors
without touching the table, and an id cancelled once out of
`ACTIVE_DOWNLOADS` errors on a second cancel. -/
theorem C7_cancel_missing_id_witness :
    cancel_send_model [("other", (⟨"7-a-b", some ()⟩ : ActiveSendM))] "gone" =
        ([("other", ⟨"7-a-b", some ()⟩)], .error "No active send found for this ID") ∧
      (cancel_download_model
        (cancel_download_model [("d1", (⟨(), "f.txt"⟩ : ActiveDownloadM))] "d1").1 "d1").2 =
        .error "No active download found for this ID" := by
  have h := C7_cancel_missing_id [("other", (⟨"7-a-b", some ()⟩ : ActiveSendM))]
    [("d1", (⟨(), "f.txt"⟩ : ActiveDownloadM))] [] "gone"
  have h' := C7_cancel_missing_id [] [("d1", (⟨(), "f.txt"⟩ : ActiveDownloadM))] [] "d1"
  exact ⟨h.1 (by decide), h'.2.2.2.2.1⟩

/-! ## C5 — find_unique_file_path -/

theorem findUniqueLoop_first_free (ex : String → Bool) (stem ext ts : String) :
    ∀ (fuel counter k : Nat), counter ≤ k → k < counter + fuel → k ≤ 10000 →
      ex (probeName stem k ext) = false →
      (∀ j, counter ≤ j → j < k → ex (probeName stem j ext) = true) →
      findUniqueLoop ex stem ext ts counter fuel = probeName stem k ext := by
  intro fuel
  induction fuel with
  | zero => intro counter k hck hlt _ _ _; omega
  | succ f ih =>
    intro counter k hck hlt hk10 hfree hbusy
    by_cases hc : counter = k
    · subst hc
      simp [findUniqueLoop, hfree]
    · have hlt' : counter < k := lt_of_le_of_ne hck hc
      have hcb : ex (probeName stem counter ext) = true :=
        hbusy counter le_rfl hlt'
      have hcnt : ¬ (counter + 1 > 10000) := by omega
      simp only [findUniqueLoop, hcb]
      rw [if_neg (by simp), if_neg hcnt]
      exact ih (counter + 1) k (by omega) (by omega) hk10 hfree
        (fun j hj hjk => hbusy j (by omega) hjk)

theorem findUniqueLoop_all_busy (ex : String → Bool) (stem ext ts : String) :
    ∀ (fuel counter : Nat), counter + fuel = 10001 →
      (∀ j, counter ≤ j → j ≤ 10000 → ex (probeName stem j ext) = true) →
      findUniqueLoop ex stem ext ts counter fuel = timestampName stem ts ext := by
  intro fuel
  induction fuel with
  | zero => intro counter _ _; rfl
  | succ f ih =>
    intro counter hsum hbusy
    have hcb : ex (probeName stem counter ext) = true :=
      hbusy counter le_rfl (by omega)
    simp only [findUniqueLoop, hcb]
    rw [if_neg (by simp)]
    by_cases hcnt : counter + 1 > 10000
    · rw [if_pos hcnt]
    · rw [if_neg hcnt]
      exact ih (counter + 1) (by omega) (fun j hj hj10 => hbusy j (by omega) hj10)

/-- C5.  `find_unique_file_path` (files.rs 1681-1715) over an abstract
existence predicate `ex` and timestamp `ts`: an unused proposed name is
returned unchanged; otherwise the name is split into stem and last
extension on the final dot (empty extension without a dot) and
`stem(n)ext` is probed for n = 1, 2, …, returning the first unused
candidate; when all 10000 numbered probes are in use the timestamp
fallback `stem_YYYYMMDD_HHMMSS.ext` is returned without a further probe;
and resolving `"a.txt"` when `a.txt` and `a(1).txt` exist yields
`a(2).txt`, while `"README"` keeps an empty extension. -/
theorem C5_find_unique_file_path_spec (ex : String → Bool) (name ts : String) :
    (ex name = false → find_unique_file_path ex name ts = name) ∧
    (ex name = true →
      ∀ k, 1 ≤ k → k ≤ 10000 →
        ex (probeName (stemExt name).1 k (stemExt name).2) = false →
        (∀ j, 1 ≤ j → j < k →
          ex (probeName (stemExt name).1 j (stemExt name).2) = true) →
        find_unique_file_path ex name ts =
          probeName (stemExt name).1 k (stemExt name).2) ∧
    (ex name = true →
      (∀ j, 1 ≤ j → j ≤ 10000 →
        ex (probeName (stemExt name).1 j (stemExt name).2) = true) →
      find_unique_file_path ex name ts =
        timestampName (stemExt name).1 ts (stemExt name).2) ∧
    find_unique_file_path (fun s => s == "a.txt" || s == "a(1).txt") "a.txt" ts
      = "a(2).txt" ∧
    find_unique_file_path (fun s => s == "README") "README" ts = "README(1)" ∧
    stemExt "a.txt" = ("a", ".txt") ∧ stemExt "README" = ("README", "") := by
  refine ⟨?_, ?_, ?_, ?_, ?_, ?_, ?_⟩
  · intro h
    simp [find_unique_file_path, h]
  · intro h k hk1 hk10 hfree hbusy
    unfold find_unique_file_path
    rw [if_neg (by simp [h])]
    exact findUniqueLoop_first_free ex _ _ ts 10000 1 k hk1 (by omega) hk10 hfree
      (fun j hj hjk => hbusy j hj hjk)
  · intro h hbusy
    unfold find_unique_file_path
    rw [if_neg (by simp [h])]
    exact findUniqueLoop_all_busy ex _ _ ts 10000 1 rfl
      (fun j hj hj10 => hbusy j hj hj10)
  · rfl
  · rfl
  · rfl
  · rfl

/-- C5, witness: a fresh name resolves to itself, and the spec's collision
example resolves to `a(2).txt` (the latter picked out of the proved
conjunction). -/
theorem C5_find_unique_file_path_witness :
    find_unique_file_path (fun _ => false) "b.txt" "20250101_000000" = "b.txt" ∧
    find_unique_file_path (fun s => s == "a.txt" || s == "a(1).txt") "a.txt"
      "20250101_000000" = "a(2).txt" := by
  have h := C5_find_unique_file_path_spec (fun _ => false) "b.txt" "20250101_000000"
  have h' := C5_find_unique_file_path_spec (fun s => s == "a.txt" || s == "a(1).txt")
    "a.txt" "20250101_000000"
  exact ⟨h.1 rfl, h'.2.2.2.1⟩

/-! ## C8 — progress percentage -/

/-- C8, counterexample.  The claim states the published percentage equals
`floor(sent / total * 100)` whenever `total > 0`.  The handlers compute it
in `f64` (files.rs 860-865, 1199-1204): at `sent = 29`, `total = 200 - 100 = 100`
the double nearest to `29 / 100` is slightly below `0.29`, its product with
`100.0` rounds to `28.999999999999996`, and the `as u64` truncation yields
`28`, while `floor(29 · 100 / 100) = 29`. -/
theorem C8_percentage_not_floor_counterexample :
    percentage 29 100 ≠ 29 * 100 / 100 := by decide

/-- C8, amended.  The published percentage is the IEEE-754 binary64
evaluation of `sent / total * 100` truncated toward zero (`0` when
`total = 0`); it agrees with `floor(sent · 100 / total)` on the spec's
examples — `(0, 0) ↦ 0`, `(50, 200) ↦ 25`, `(200, 200) ↦ 100` — but not
universally: `(29, 100) ↦ 28` where the exact floor is `29`. -/
theorem C8_percentage_f64_behaviour :
    (∀ sent : Nat, percentage sent 0 = 0) ∧
    percentage 0 0 = 0 ∧
    percentage 50 200 = 25 ∧
    percentage 200 200 = 100 ∧
    percentage 29 100 = 28 ∧ 29 * 100 / 100 = 29 := by
  refine ⟨?_, by decide, by decide, by decide, by decide, by decide⟩
  intro sent
  rfl

/-! ## C2 — reported archive size vs final on-disk size -/

/-- C2.  The claim states the returned byte count equals the exact on-disk
length of the finished, flushed archive read back after the writer is
closed.  In `create_tarball_from_folder` / `create_tarball_from_paths`
(files.rs 1548-1551, 1603-1606) `std::fs::metadata(output_path)` is read
while the `GzEncoder` is still live; the 8-byte gzip trailer is appended
only when the encoder is dropped, after the return value is fixed.  For
every run the returned count is exactly the trailer length short of the
final on-disk size (and the code works around this: files.rs 831-843 reopens
the file and trusts its metadata over the returned value). -/
theorem C2_reported_size_short_of_final (compressedFlushed : Nat) :
    (create_tarball_disk_run compressedFlushed).1 + GZIP_TRAILER_LEN =
        (create_tarball_disk_run compressedFlushed).2.disk ∧
      (create_tarball_disk_run compressedFlushed).1 ≠
        (create_tarball_disk_run compressedFlushed).2.disk ∧
      (create_tarball_disk_run compressedFlushed).2.trailerDone = true := by
  refine ⟨rfl, ?_, rfl⟩
  simp [create_tarball_disk_run, gzAppendFlushed, gzDrop, GZIP_TRAILER_LEN]

/-! ## C3 — cleanup of the partially written archive on pack failure -/

/-- C3, counterexample.  The claim states that on a pack failure the call
signals the error and deletes the partially written archive before
returning.  With the single source path `"gone"` absent from the
filesystem, `create_tarball_from_paths` has already run
`File::create(output_path)` (files.rs 1567) when the existence check fails
(files.rs 1575-1577), and neither it nor the `??` propagation in
`send_multiple_files_call` (files.rs 793-802) removes the file: the call
returns the `SourceMissing`-style error with the archive file still
present at the output location. -/
theorem C3_leftover_archive_counterexample :
    send_multiple_files_packaging ["gone"] [] =
      (.error "File or folder does not exist: gone", true) := rfl

/-- C3, amended.  Whenever a source path is found missing at the
per-source check, the packaging stage signals
`File or folder does not exist: <path>` for the first missing source, but
the partially written archive file is left at the output location when the
call returns; it is deleted only on the later failure paths that follow a
successful pack (files.rs 823-826, 901-904). -/
theorem C3_missing_source_leaves_archive (paths fsExisting : List String)
    (p : String)
    (h : paths.find? (fun q => !(fsExisting.contains q)) = some p) :
    send_multiple_files_packaging paths fsExisting =
      (.error ("File or folder does not exist: " ++ p), true) := by
  unfold send_multiple_files_packaging create_tarball_from_paths_fsrun
  rw [h]

/-- C3, witness for the amended theorem: two sources, the second one
missing. -/
theorem C3_missing_source_leaves_archive_witness :
    send_multiple_files_packaging ["a.txt", "b.txt"] ["a.txt"] =
      (.error ("File or folder does not exist: " ++ "b.txt"), true) :=
  C3_missing_source_leaves_archive ["a.txt", "b.txt"] ["a.txt"] "b.txt" rfl

/-! ## C9 — table locks across suspension points -/

/-- C9, counterexample.  The claim states that no lock on any of the four
session tables is ever held across an I/O suspension point.  In
`receiving_file_accept` (files.rs 1152-1422) the `REQUESTS_HASHMAP` guard
is bound at function scope (1153-1154) and is still held at the very next
await — and across the settings lock, `create_dir_all`, `File::create`,
the whole `accept` transfer and the extraction join — as its trace
records. -/
theorem C9_lock_across_await_counterexample :
    heldAtSusp [] receiving_file_accept_trace = true := rfl

/-- C9, amended.  Table locks are held only for the duration of a single
map operation — never across a suspension point — in `send_file_call`,
`send_multiple_files_call`, `cancel_send`, `request_file_call`,
`cancel_connection` and `cancel_download`; but `receiving_file_deny` and
`receiving_file_accept` hold the pending-offers (`REQUESTS_HASHMAP`) guard
across their I/O awaits (the peer rejection, respectively the entire
accept/download/extract flow). -/
theorem C9_lock_scopes_by_function :
    heldAtSusp [] send_file_call_trace = false ∧
    heldAtSusp [] send_multiple_files_call_trace = false ∧
    heldAtSusp [] cancel_send_trace = false ∧
    heldAtSusp [] request_file_call_trace = false ∧
    heldAtSusp [] cancel_connection_trace = false ∧
    heldAtSusp [] cancel_download_trace = false ∧
    heldAtSusp [] receiving_file_deny_trace = true ∧
    heldAtSusp [] receiving_file_accept_trace = true := by
  refine ⟨rfl, rfl, rfl, rfl, rfl, rfl, rfl, rfl⟩

/-! ## C10 — receive-code input handling -/

/-- C10.  `request_file_call` (files.rs 994-1023) parses the code obtained
by trimming surrounding whitespace and removing at most one leading
`"wormhole receive "` (plus following whitespace): a doubled prefix is
stripped once only; an empty remainder or a failed `Code` parse returns an
error, and in every error outcome the `ACTIVE_CONNECTIONS` table is left
untouched (the insert at files.rs 1020-1023 runs only after a successful
parse).  Edge: `"wormhole receive   "` trims to `"wormhole receive"`, so
the prefix (which ends in a space) is not stripped and the remainder goes
to the `Code` parser — still an error path with no insertion whenever that
parse fails. -/
theorem C10_parse_errors_insert_nothing :
    (∀ (parseCode : String → Option String) (input connId : String)
        (conns : Table ActiveConnectionM) (e : String),
      (request_file_call_parse_phase parseCode input connId conns).1 = .error e →
      (request_file_call_parse_phase parseCode input connId conns).2 = conns) ∧
    (∀ (parseCode : String → Option String) (input connId : String)
        (conns : Table ActiveConnectionM) (s c : String),
      parse_receive_input input = .ok s → parseCode s = some c →
      request_file_call_parse_phase parseCode input connId conns =
        (.ok c, insertT connId ⟨()⟩ conns)) ∧
    parse_receive_input "  wormhole receive   7-guitarist-revenge  " =
      .ok "7-guitarist-revenge" ∧
    parse_receive_input "wormhole receive wormhole receive 7-a-b" =
      .ok "wormhole receive 7-a-b" ∧
    parse_receive_input "   " = .error "No code provided for receiving file." ∧
    parse_receive_input "wormhole receive   " = .ok "wormhole receive" := by
  refine ⟨?_, ?_, ?_, ?_, ?_, ?_⟩
  · intro parseCode input connId conns e h
    cases hp : parse_receive_input input with
    | error e' => simp [request_file_call_parse_phase, hp]
    | ok s =>
      cases hc : parseCode s with
      | none => simp [request_file_call_parse_phase, hp, hc]
      | some c => simp [request_file_call_parse_phase, hp, hc] at h
  · intro parseCode input connId conns s c hp hc
    simp [request_file_call_parse_phase, hp, hc]
  · rfl
  · rfl
  · rfl
  · rfl

/-- C10, witness: a failed parse of a normalised input leaves a concrete
connections table unchanged, and a successful parse registers the
connection. -/
theorem C10_parse_errors_insert_nothing_witness :
    (request_file_call_parse_phase (fun _ => none) " 7-a-b " "c1"
        [("c0", ⟨()⟩)]).2 = [("c0", ⟨()⟩)] ∧
      request_file_call_parse_phase (fun s => some s) "wormhole receive 7-a-b"
        "c1" [] = (.ok "7-a-b", insertT "c1" ⟨()⟩ []) := by
  have h := C10_parse_errors_insert_nothing
  exact ⟨h.1 (fun _ => none) " 7-a-b " "c1" [("c0", ⟨()⟩)]
      ("Error parsing code: " ++ "7-a-b") rfl,
    h.2.1 (fun s => some s) "wormhole receive 7-a-b" "c1" [] "7-a-b" "7-a-b" rfl rfl⟩

/-! ## C6 — post-download archive handling -/

/-- C6.  After a completed download, `receiving_file_accept`
(files.rs 1314-1418) treats the file as an archive exactly when the final
file name ends with `.tar.gz`, `.tgz` or `.gz`: with auto-extraction
enabled it records one history entry per successfully extracted file and
deletes the archive from disk; with auto-extraction disabled it records
exactly one history entry for the archive itself and leaves the archive on
disk; a non-archive name always yields one history entry and no
deletion. -/
theorem C6_archive_detection_and_handling (finalName : String) (fileSize : Nat)
    (autoExtract : Bool) (extracted : List (String × Nat)) :
    is_tarball finalName =
      (endsWithS finalName ".tar.gz" || endsWithS finalName ".tgz" ||
        endsWithS finalName ".gz") ∧
    (is_tarball finalName = true → autoExtract = true →
      receiving_file_accept_post finalName fileSize autoExtract extracted =
        ⟨extracted.map
            (fun en => ((splitNameExt en.1).1, (splitNameExt en.1).2, en.2)),
          true⟩) ∧
    (is_tarball finalName = true → autoExtract = false →
      receiving_file_accept_post finalName fileSize autoExtract extracted =
        ⟨[((splitNameExt finalName).1, (splitNameExt finalName).2, fileSize)],
          false⟩) ∧
    (is_tarball finalName = false →
      receiving_file_accept_post finalName fileSize autoExtract extracted =
        ⟨[((splitNameExt finalName).1, (splitNameExt finalName).2, fileSize)],
          false⟩) ∧
    is_tarball "report.tar.gz" = true ∧ is_tarball "archive.tgz" = true ∧
    is_tarball "folder.gz" = true ∧ is_tarball "report.txt" = false := by
  refine ⟨rfl, ?_, ?_, ?_, by decide, by decide, by decide, by decide⟩
  · intro ht ha
    unfold receiving_file_accept_post
    rw [ht, ha]
    rfl
  · intro ht ha
    unfold receiving_file_accept_post
    rw [ht, ha]
    rfl
  · intro ht
    unfold receiving_file_accept_post
    rw [ht]
    rfl

/-- C6, witness: receiving `report.tar.gz` with auto-extraction on yields
one history record per extracted file and deletes the archive; with
auto-extraction off, one record for the archive itself and no deletion;
`notes.txt` is never treated as an archive. -/
theorem C6_archive_detection_and_handling_witness :
    receiving_file_accept_post "report.tar.gz" 2048 true
        [("a.txt", 10), ("b.bin", 20)] =
      ⟨[("a", "txt", 10), ("b", "bin", 20)], true⟩ ∧
    receiving_file_accept_post "report.tar.gz" 2048 false
        [("a.txt", 10), ("b.bin", 20)] =
      ⟨[("report.tar", "gz", 2048)], false⟩ ∧
    receiving_file_accept_post "notes.txt" 7 true [] =
      ⟨[("notes", "txt", 7)], false⟩ := by
  have h1 := C6_archive_detection_and_handling "report.tar.gz" 2048 true
    [("a.txt", 10), ("b.bin", 20)]
  have h2 := C6_archive_detection_and_handling "report.tar.gz" 2048 false
    [("a.txt", 10), ("b.bin", 20)]
  have h3 := C6_archive_detection_and_handling "notes.txt" 7 true []
  refine ⟨?_, ?_, ?_⟩
  · rw [h1.2.1 (by decide) rfl]
    rfl
  · rw [h2.2.2.1 (by decide) rfl]
    rfl
  · rw [h3.2.2.2.1 (by decide)]
    rfl

/-! ## C4 — pack / unpack roundtrip -/

theorem fsLookup_fsWrite_self (fs : DestFS) (p : RPath) (c : Bytes) :
    fsLookup (fsWrite fs p c) p = some c := by
  induction fs with
  | nil => simp [fsWrite, fsLookup]
  | cons e rest ih =>
    by_cases h : e.1 = p
    · simp [fsWrite, h, fsLookup]
    · simp [fsWrite, h, fsLookup, ih]

theorem fsLookup_fsWrite_other (fs : DestFS) (p q : RPath) (c : Bytes)
    (h : p ≠ q) : fsLookup (fsWrite fs q c) p = fsLookup fs p := by
  induction fs with
  | nil =>
    have h' : ¬ q = p := fun hh => h hh.symm
    simp [fsWrite, fsLookup, h']
  | cons e rest ih =>
    by_cases he : e.1 = q
    · have hep : ¬ e.1 = p := by rw [he]; exact fun hh => h hh.symm
      have h' : ¬ q = p := fun hh => h hh.symm
      simp [fsWrite, he, fsLookup, h', hep]
    · by_cases hep : e.1 = p
      · simp [fsWrite, he, fsLookup, hep, h]
      · simp [fsWrite, he, fsLookup, hep, h, ih]

theorem fsLookup_foldWrites_not_mem (ws : List (RPath × Bytes)) :
    ∀ (fs : DestFS) (p : RPath), p ∉ ws.map (·.1) →
      fsLookup (foldWrites ws fs) p = fsLookup fs p := by
  induction ws with
  | nil => intro fs p _; rfl
  | cons w rest ih =>
    intro fs p h
    rw [List.map_cons] at h
    have h1 : p ≠ w.1 := fun hh => h (by rw [hh]; exact List.mem_cons_self _ _)
    have h2 : p ∉ rest.map (·.1) := fun hh => h (List.mem_cons_of_mem _ hh)
    rw [show foldWrites (w :: rest) fs = foldWrites rest (fsWrite fs w.1 w.2) from rfl]
    rw [ih _ p h2, fsLookup_fsWrite_other fs p w.1 w.2 h1]

theorem fsLookup_foldWrites_mem (ws : List (RPath × Bytes)) :
    ∀ (fs : DestFS) (p : RPath) (c : Bytes),
      (ws.map (·.1)).Nodup → (p, c) ∈ ws →
      fsLookup (foldWrites ws fs) p = some c := by
  induction ws with
  | nil => intro fs p c _ hmem; cases hmem
  | cons w rest ih =>
    intro fs p c hnd hmem
    rw [List.map_cons] at hnd
    have h12 := List.nodup_cons.mp hnd
    rw [show foldWrites (w :: rest) fs = foldWrites rest (fsWrite fs w.1 w.2) from rfl]
    rcases List.mem_cons.mp hmem with heq | hmem'
    · have hp1 : w.1 = p := by rw [← heq]
      have hc : w.2 = c := by rw [← heq]
      have hnotin : p ∉ rest.map (·.1) := hp1 ▸ h12.1
      rw [fsLookup_foldWrites_not_mem rest _ p hnotin, hp1, hc,
        fsLookup_fsWrite_self]
    · exact ih _ p c h12.2 hmem'

theorem fileEntriesOf_append (l1 l2 : List TarEntry) :
    fileEntriesOf (l1 ++ l2) = fileEntriesOf l1 ++ fileEntriesOf l2 := by
  simp [fileEntriesOf, List.filterMap_append]

theorem fileEntriesOf_map_fileE (g : (RPath × Bytes) → RPath)
    (l : List (RPath × Bytes)) :
    fileEntriesOf (l.map (fun pc => TarEntry.fileE (g pc) pc.2)) =
      l.map (fun pc => (g pc, pc.2)) := by
  induction l with
  | nil => rfl
  | cons x rest ih =>
    have hstep : fileEntriesOf ((x :: rest).map (fun pc => TarEntry.fileE (g pc) pc.2)) =
        (g x, x.2) :: fileEntriesOf (rest.map (fun pc => TarEntry.fileE (g pc) pc.2)) := rfl
    rw [hstep, ih, List.map_cons]

theorem fileEntriesOf_packEntries (w : String) (srcs : List SrcItem) :
    fileEntriesOf (packEntries w srcs) =
      (flatFiles srcs).map (fun pc => (w :: pc.1, pc.2)) := by
  induction srcs with
  | nil => rfl
  | cons s rest ih =>
    cases s with
    | file b c =>
      have hstep : fileEntriesOf (packEntries w (SrcItem.file b c :: rest)) =
          ([w, b], c) :: fileEntriesOf (packEntries w rest) := rfl
      have hflat : flatFiles (SrcItem.file b c :: rest) = ([b], c) :: flatFiles rest := rfl
      rw [hstep, hflat, List.map_cons, ih]
    | dir b fs =>
      have h1 : packEntries w (SrcItem.dir b fs :: rest) =
          TarEntry.dirE [w, b] ::
            (fs.map (fun pc => TarEntry.fileE ([w, b] ++ pc.1) pc.2) ++
              packEntries w rest) := rfl
      have h2 : fileEntriesOf (TarEntry.dirE [w, b] ::
            (fs.map (fun pc => TarEntry.fileE ([w, b] ++ pc.1) pc.2) ++
              packEntries w rest)) =
          fileEntriesOf (fs.map (fun pc => TarEntry.fileE ([w, b] ++ pc.1) pc.2) ++
            packEntries w rest) := rfl
      have hflat : flatFiles (SrcItem.dir b fs :: rest) =
          fs.map (fun pc => (b :: pc.1, pc.2)) ++ flatFiles rest := rfl
      rw [h1, h2, fileEntriesOf_append, hflat, List.map_append, ih,
        fileEntriesOf_map_fileE (fun pc => [w, b] ++ pc.1) fs, List.map_map]
      rfl

theorem nodup_prepend_wrapper (w : String) (l : List (RPath × Bytes))
    (h : (l.map (·.1)).Nodup) :
    ((l.map (fun pc => (w :: pc.1, pc.2))).map (·.1)).Nodup := by
  have h2 : (l.map (fun pc => (w :: pc.1, pc.2))).map (·.1) =
      (l.map (·.1)).map (fun p => w :: p) := by
    simp [List.map_map, Function.comp]
  rw [h2]
  refine h.map ?_
  intro a b hab
  simpa using hab

theorem any_eq_false_of_forall {α : Type} (l : List α) (f : α → Bool)
    (h : ∀ x ∈ l, f x = false) : l.any f = false := by
  induction l with
  | nil => rfl
  | cons x rest ih =>
    rw [List.any_cons, h x (List.mem_cons_self x rest),
      ih (fun y hy => h y (List.mem_cons_of_mem x hy))]
    rfl

theorem mem_fsWrite (fs : DestFS) (p : RPath) (c : Bytes) :
    ∀ e ∈ fsWrite fs p c, e ∈ fs ∨ e = (p, c) := by
  induction fs with
  | nil =>
    intro e he
    rcases List.mem_cons.mp he with h1 | h1
    · right; exact h1
    · cases h1
  | cons x rest ih =>
    intro e he
    have hunf : fsWrite (x :: rest) p c =
        if x.1 = p then (p, c) :: rest else x :: fsWrite rest p c := rfl
    by_cases hx : x.1 = p
    · rw [hunf, if_pos hx] at he
      rcases List.mem_cons.mp he with h1 | h1
      · right; exact h1
      · left; exact List.mem_cons_of_mem _ h1
    · rw [hunf, if_neg hx] at he
      rcases List.mem_cons.mp he with h1 | h1
      · left; exact h1 ▸ List.mem_cons_self x rest
      · rcases ih e h1 with h2 | h2
        · left; exact List.mem_cons_of_mem _ h2
        · right; exact h2

theorem pathsConflict_cons (w : String) (p q : RPath) :
    pathsConflict (w :: p) (w :: q) = pathsConflict p q := by
  simp [pathsConflict, strictAncestor, List.cons_beq_cons]

theorem nodup_of_conflict_free (l : List RPath)
    (h : l.Pairwise (fun p q => pathsConflict p q = false)) : l.Nodup := by
  refine h.imp ?_
  intro p q hpq heq
  subst heq
  simp [pathsConflict] at hpq

theorem extract_tarball_model_ok (entries : List TarEntry) :
    ∀ fs : DestFS,
      (∀ e ∈ fs, ∀ pc ∈ fileEntriesOf entries, pathsConflict e.1 pc.1 = false) →
      ((fileEntriesOf entries).map (·.1)).Pairwise
        (fun p q => pathsConflict p q = false) →
      extract_tarball_model entries fs =
        .ok ((fileEntriesOf entries).map
              (fun pc => ((pc.1.getLast?).getD (String.intercalate "/" pc.1),
                pc.2.length)),
            foldWrites (fileEntriesOf entries) fs) := by
  induction entries with
  | nil => intro fs _ _; rfl
  | cons entry rest ih =>
    intro fs hfs hpw
    cases entry with
    | dirE p =>
      have h1 : fileEntriesOf (TarEntry.dirE p :: rest) = fileEntriesOf rest := rfl
      have h2 : extract_tarball_model (TarEntry.dirE p :: rest) fs =
          extract_tarball_model rest fs := rfl
      rw [h1] at hfs hpw ⊢
      rw [h2]
      exact ih fs hfs hpw
    | fileE p c =>
      have hfe : fileEntriesOf (TarEntry.fileE p c :: rest) =
          (p, c) :: fileEntriesOf rest := rfl
      rw [hfe] at hfs hpw ⊢
      rw [List.map_cons] at hpw
      have h12 := List.pairwise_cons.mp hpw
      have hanc : fileAncestorOf fs p = false := by
        apply any_eq_false_of_forall
        intro e he
        have hc := hfs e he (p, c) (List.mem_cons_self _ _)
        simp only [pathsConflict, Bool.or_eq_false_iff] at hc
        exact hc.1.2
      have hdir : isDirAt fs p = false := by
        apply any_eq_false_of_forall
        intro e he
        have hc := hfs e he (p, c) (List.mem_cons_self _ _)
        simp only [pathsConflict, Bool.or_eq_false_iff] at hc
        exact hc.2
      have hunf : extract_tarball_model (TarEntry.fileE p c :: rest) fs =
          if fileAncestorOf fs p then .error "Failed to create directory"
          else if isDirAt fs p then .error "Failed to create output file"
          else
            match extract_tarball_model rest (fsWrite fs p c) with
            | .error e => .error e
            | .ok out => .ok (((p.getLast?).getD (String.intercalate "/" p),
                c.length) :: out.1, out.2) := rfl
      rw [hunf, hanc, hdir, if_neg Bool.false_ne_true, if_neg Bool.false_ne_true]
      have hrec := ih (fsWrite fs p c) ?_ h12.2
      · rw [hrec]
        rfl
      · intro e he pc hpc
        rcases mem_fsWrite fs p c e he with h1 | h1
        · exact hfs e h1 pc (List.mem_cons_of_mem _ hpc)
        · rw [h1]
          exact h12.1 pc.1 (List.mem_map_of_mem (·.1) hpc)

/-- C4, counterexample.  The claim quantifies over every non-empty list of
existing files: packing the two distinct files both named `x` (contents
`[0]` and `[1]`) under wrapper `w` maps both to archive path `w/x`, so
extraction into an empty directory truncates and rewrites the first `w/x`
with the second (`File::create` at files.rs 1664 overwrites an existing
file) — the first file's bytes are reproduced nowhere (its position holds
`[1]`) and the name `x` is reported twice, not exactly once. -/
theorem C4_duplicate_basename_counterexample :
    extract_tarball_model (packEntries "w" [.file "x" [0], .file "x" [1]]) [] =
        .ok ([("x", 1), ("x", 1)], [(["w", "x"], [1])]) ∧
      fsLookup [(["w", "x"], [1])] ["w", "x"] ≠ some [0] := by
  exact ⟨rfl, by decide⟩

/-- C4, amended.  For every list of sources and wrapper name whose induced
archive file paths are pairwise non-conflicting — pairwise distinct, and
none a strict ancestor of another (in particular no file source sharing a
basename with a directory source, since extraction then aborts:
`create_dir_all` over an extracted file, files.rs 1658-1661, or
`File::create` on a created directory, files.rs 1664-1665) — packing
(`create_tarball_from_paths`, files.rs 1562-1613) then unpacking
(`extract_tarball`, files.rs 1616-1678) into an empty directory succeeds
and reproduces every original file's bytes at its relative position under
the wrapper name exactly once (the written paths are pairwise distinct),
the report lists exactly the file entries by final path component —
directory entries are never reported — and a conflicting file/directory
basename pair indeed makes extraction fail. -/
theorem C4_pack_unpack_roundtrip (srcs : List SrcItem) (w : String)
    (hnc : ((flatFiles srcs).map (·.1)).Pairwise
      (fun p q => pathsConflict p q = false)) :
    extract_tarball_model (packEntries w srcs) [] =
        .ok ((flatFiles srcs).map
              (fun pc => (((w :: pc.1).getLast?).getD
                  (String.intercalate "/" (w :: pc.1)), pc.2.length)),
            foldWrites ((flatFiles srcs).map (fun pc => (w :: pc.1, pc.2))) []) ∧
      (∀ pc ∈ flatFiles srcs,
        fsLookup (foldWrites ((flatFiles srcs).map (fun pc => (w :: pc.1, pc.2))) [])
          (w :: pc.1) = some pc.2) ∧
      ((fileEntriesOf (packEntries w srcs)).map (·.1)).Nodup ∧
      extract_tarball_model
          (packEntries "w" [.file "x" [0], .dir "x" [(["s"], [1])]]) [] =
        .error "Failed to create directory" := by
  have hnd : ((flatFiles srcs).map (·.1)).Nodup := nodup_of_conflict_free _ hnc
  have hpw0 : ((fileEntriesOf (packEntries w srcs)).map (·.1)).Pairwise
      (fun p q => pathsConflict p q = false) := by
    rw [fileEntriesOf_packEntries, List.map_map]
    have hmapped : ((flatFiles srcs).map ((·.1) ∘ fun pc => (w :: pc.1, pc.2))).Pairwise
        (fun p q => pathsConflict p q = false) ↔
        (flatFiles srcs).Pairwise
          (fun a b => pathsConflict (w :: a.1) (w :: b.1) = false) :=
      List.pairwise_map
    rw [hmapped]
    have hnc' := List.pairwise_map.mp hnc
    refine hnc'.imp ?_
    intro a b hab
    rw [pathsConflict_cons]
    exact hab
  refine ⟨?_, ?_, ?_, rfl⟩
  · have hok := extract_tarball_model_ok (packEntries w srcs) []
      (fun e he => absurd he (List.not_mem_nil e)) hpw0
    rw [hok, fileEntriesOf_packEntries, List.map_map]
    rfl
  · intro pc hpc
    exact fsLookup_foldWrites_mem _ [] (w :: pc.1) pc.2
      (nodup_prepend_wrapper w _ hnd)
      (List.mem_map_of_mem (fun pc => (w :: pc.1, pc.2)) hpc)
  · rw [fileEntriesOf_packEntries]
    exact nodup_prepend_wrapper w _ hnd

/-- C4, witness: one plain file and one folder with a nested file, distinct
names — extraction succeeds, both files are reproduced at their
wrapper-relative positions, and each is reported once by its final path
component with no directory entry among the records. -/
theorem C4_pack_unpack_roundtrip_witness :
    extract_tarball_model
        (packEntries "wrap" [.file "a.txt" [1, 2], .dir "d" [(["sub", "f.bin"], [3])]])
        [] =
      .ok ([("a.txt", 2), ("f.bin", 1)],
        [(["wrap", "a.txt"], [1, 2]), (["wrap", "d", "sub", "f.bin"], [3])]) ∧
      fsLookup [(["wrap", "a.txt"], [1, 2]), (["wrap", "d", "sub", "f.bin"], [3])]
        ["wrap", "d", "sub", "f.bin"] = some [3] := by
  have h := C4_pack_unpack_roundtrip
    [.file "a.txt" [1, 2], .dir "d" [(["sub", "f.bin"], [3])]] "wrap" (by decide)
  constructor
  · rw [h.1]
    rfl
  · have h2 := h.2.1 (["d", "sub", "f.bin"], [3]) (by decide)
    rw [show foldWrites
        ((flatFiles [SrcItem.file "a.txt" [1, 2], SrcItem.dir "d" [(["sub", "f.bin"], [3])]]).map
          (fun pc => ("wrap" :: pc.1, pc.2))) [] =
        [(["wrap", "a.txt"], [1, 2]), (["wrap", "d", "sub", "f.bin"], [3])] from rfl] at h2
    exact h2

end Wyrm
